import Mathlib

/-!
Shallow embedding of the `lambda_clients` repository's core logic
(`src/app/db_utils.py` and the request-level guards of
`src/app/lambda_function.py`), together with theorems checking the
natural-language specification against it.

Python dictionaries are modelled as insertion-ordered association lists,
JSON scalar values as `Val` (a string or null), the database table as a
list of rows, and a raised Python exception as the `Except.error` case of
an `Except String` computation; `process_client_item`'s `try/except`
becomes an explicit catch.
-/

/-- A JSON-ish scalar value as the handlers see it: a string or null.
`Val.null` plays the role of Python `None`. -/
inductive Val where
  | str : String → Val
  | null : Val
deriving DecidableEq, Repr

/-- Python `str(value)` for the values that reach our f-strings. -/
def Val.render : Val → String
  | .str s => s
  | .null => "None"

/-- First-match lookup in an insertion-ordered association list
(Python `d.get(k)` / `d[k]`; `none` means the key is absent). -/
def dget {α : Type} (d : List (String × α)) (k : String) : Option α :=
  match d with
  | [] => none
  | (k', v) :: rest => if k' = k then some v else dget rest k

/-- Python `k in d`. -/
def dhas {α : Type} (d : List (String × α)) (k : String) : Bool :=
  (dget d k).isSome

/-- Python `d[k] = v`: replace in place when the key exists, else append. -/
def dset {α : Type} (d : List (String × α)) (k : String) (v : α) :
    List (String × α) :=
  match d with
  | [] => [(k, v)]
  | (k', v') :: rest =>
      if k' = k then (k', v) :: rest else (k', v') :: dset rest k v

/-- Python `d.setdefault(k, v)`. -/
def dsetdefault {α : Type} (d : List (String × α)) (k : String) (v : α) :
    List (String × α) :=
  if dhas d k then d else d ++ [(k, v)]

/-- Python `d.update(e)`: fold `e`'s entries into `d` in `e`'s order. -/
def dupdate {α : Type} (d e : List (String × α)) : List (String × α) :=
  e.foldl (fun acc p => dset acc p.1 p.2) d

/-- One input record: field name to scalar value (a Python dict). -/
abbrev Item : Type := List (String × Val)

/-- One stored table row, same representation as an input record. -/
abbrev Row : Type := List (String × Val)

/-- The mutable table state the cursor acts on. -/
abbrev DB : Type := List Row

/-- A resource descriptor as written in `src/app/config.py`:
schema, table, page size, search-enabled fields, ordered column list and
required fields.  `required_fields` is a Python `set`; we fix the textual
order of `config.py`, and theorems about validation errors only use
key lookup, never the list order. -/
structure ResourceConfig where
  db_schema : String
  db_table : String
  limit : Nat
  search_fields : List String
  columns : List String
  required_fields : List String
deriving Repr

/-- `RESOURCES["clientes"]` from `src/app/config.py` (default env values). -/
def clientesConfig : ResourceConfig :=
  { db_schema := "mstx"
    db_table := "clientes"
    limit := 10
    search_fields :=
      ["primer_nombre", "primer_apellido", "numero_identificacion",
       "numero_tarjeta", "numero_celular", "correo_electronico",
       "segundo_apellido"]
    columns :=
      ["id_cliente", "primer_nombre", "segundo_nombre", "primer_apellido",
       "segundo_apellido", "tipo_identificacion", "numero_identificacion",
       "numero_celular", "correo_electronico", "fecha_afiliacion",
       "codigo_identificacion"]
    required_fields :=
      ["primer_nombre", "primer_apellido", "tipo_identificacion",
       "numero_identificacion", "fecha_afiliacion", "codigo_identificacion"] }

/-- The quoted `"schema"."table"` name built throughout `db_utils.py`. -/
def tableNameOf (cfg : ResourceConfig) : String :=
  "\"" ++ cfg.db_schema ++ "\".\"" ++ cfg.db_table ++ "\""

/-! ## Python string primitives
Structural (character-list) translations of the Python string methods the
source uses, restricted to ASCII. -/

/-- The whitespace `str.strip()` removes (ASCII model). -/
def pyWhitespace (c : Char) : Bool :=
  c = ' ' || c = '\t' || c = '\n' || c = '\r'

/-- Python `s.strip()`. -/
def pyStrip (s : String) : String :=
  ⟨((s.data.dropWhile pyWhitespace).reverse.dropWhile pyWhitespace).reverse⟩

/-- Python `str.lower` on one ASCII character. -/
def pyLowerChar (c : Char) : Char :=
  if 'A' ≤ c && c ≤ 'Z' then Char.ofNat (c.toNat + 32) else c

/-- Python `s.lower()`. -/
def pyLower (s : String) : String :=
  ⟨s.data.map pyLowerChar⟩

/-! ## Pager (`get_paginated_data`, lines 13-17 and 42-43) -/

/-- Python `str.isdigit` restricted to ASCII: non-empty and all digits. -/
def pyIsDigit (s : String) : Bool :=
  !s.data.isEmpty && s.data.all Char.isDigit

/-- Python `int(s)` on a digit-only string. -/
def pyInt (s : String) : Nat :=
  s.data.foldl (fun n c => n * 10 + (c.toNat - 48)) 0

/-- Query parameters: a Python dict of raw strings. -/
abbrev QueryParams : Type := List (String × String)

/-- Lines 13-16: `page = int(raw) if raw.isdigit() else 1` with the raw
value defaulting to "1", then clamped below by 1. -/
def pageOf (qp : QueryParams) : Nat :=
  let raw := (dget qp "page").getD "1"
  let p := if pyIsDigit raw then pyInt raw else 1
  if p < 1 then 1 else p

/-- Line 17: `offset = (page - 1) * limit`. -/
def offsetOf (qp : QueryParams) (limit : Nat) : Nat :=
  (pageOf qp - 1) * limit

/-- Lines 42-43: `ceil(total_records / limit)` when positive, else 1. -/
def totalPagesOf (totalRecords limit : Nat) : Nat :=
  if totalRecords > 0 then (totalRecords + limit - 1) / limit else 1

/-- The `pagination` object returned by `get_paginated_data`. -/
structure Pagination where
  currentPage : Nat
  totalPages : Nat
  totalRecords : Nat
  recordsPerPage : Nat
deriving DecidableEq, Repr

/-- Lines 53-57 of `get_paginated_data`, given the count query's result. -/
def get_paginated_pagination (cfg : ResourceConfig) (qp : QueryParams)
    (totalRecords : Nat) : Pagination :=
  { currentPage := pageOf qp
    totalPages := totalPagesOf totalRecords cfg.limit
    totalRecords := totalRecords
    recordsPerPage := cfg.limit }

/-! ## Predicate Builder (`get_paginated_data`, lines 21-38) -/

/-- The search-filter loop, lines 25-31: for each search-enabled field
present in the query parameters whose value is non-empty after trimming,
one `LOWER(field::text) LIKE %s` clause paired with the bound term
`lower(trimmed) ++ percent`. -/
def searchFilters (fields : List String) (qp : QueryParams) :
    List (String × String) :=
  fields.filterMap (fun f =>
    match dget qp f with
    | none => none
    | some v =>
        let t := pyStrip v
        if t = "" then none
        else some ("LOWER(" ++ f ++ "::text) LIKE %s", pyLower t ++ "%"))

/-- Lines 21-38: search clauses, then the unconditional `id_cliente`
equality clause when that parameter is present; returns the parallel
clause and parameter lists. -/
def build_where (cfg : ResourceConfig) (qp : QueryParams) :
    List String × List String :=
  let base := searchFilters cfg.search_fields qp
  let withId :=
    match dget qp "id_cliente" with
    | none => base
    | some v => base ++ [("id_cliente = %s", v)]
  (withId.map Prod.fst, withId.map Prod.snd)

/-- Line 38: `WHERE ...` when any clause exists, else the empty string. -/
def whereSqlOf (clauses : List String) : String :=
  if clauses.isEmpty then "" else "WHERE " ++ String.intercalate " AND " clauses

/-- Line 39: the count query text. -/
def countSqlOf (table whereSql : String) : String :=
  "SELECT COUNT(*) FROM " ++ table ++ " " ++ whereSql

/-! ## Database model

The cursor's table is a list of rows; every statement the reconciliation
code issues filters on the `codigo_identificacion` column with one bound
parameter, so the statement semantics below is parameter-level (SQL
equality on text values; a SQL `NULL` parameter or stored `NULL` never
compares equal). -/

/-- Does a stored row match `WHERE codigo_identificacion = %s` for the
bound value `v`? -/
def rowCodigoMatches (row : Row) (v : Val) : Bool :=
  match v with
  | .null => false
  | .str s => dget row "codigo_identificacion" == some (.str s)

/-- `SELECT COUNT(*) ... WHERE codigo_identificacion = %s`. -/
def countMatching (db : DB) (v : Val) : Nat :=
  (db.filter (fun r => rowCodigoMatches r v)).length

/-! ## Error messages (the exact f-strings of `db_utils.py`) -/

def renderAction (a : Option Val) : String :=
  match a with
  | some v => v.render
  | none => "None"

def msgRequired (field : String) (a : Option Val) : String :=
  "El campo '" ++ field ++ "' es requerido para la acción '"
    ++ renderAction a ++ "'."

def msgNoExiste (c : Val) (a : Option Val) : String :=
  "El codigo_identificacion '" ++ c.render
    ++ "' no existe en la base de datos para " ++ renderAction a ++ "."

def msgDuplicado (c : Val) : String :=
  "El codigo_identificacion '" ++ c.render ++ "' está duplicado en la solicitud."

def msgYaExiste (c : Val) : String :=
  "El codigo_identificacion '" ++ c.render
    ++ "' ya existe en la base de datos (use acción M para modificar)."

def msgAccion : String :=
  "La acción debe ser A (Agregar), E (Eliminar) o M (Modificar)"

def msgTipo : String :=
  "El campo 'tipo_identificacion' debe ser un string de 2 dígitos numéricos entre 01 y 20."

def msgFecha : String :=
  "El campo 'fecha_afiliacion' debe estar en formato YYYY-MM-DD."

def msgNoUpdate (c : Val) : String :=
  "No se pudo actualizar el registro con codigo_identificacion '" ++ c.render ++ "'"

def msgNoDelete (c : Val) : String :=
  "No se pudo eliminar el registro con codigo_identificacion '" ++ c.render ++ "'"

def msgProcess (e : String) : String :=
  "Error al procesar registro: " ++ e

/-! ## Shared validation pieces -/

/-- `item.get('accion')`. -/
def actionOf (item : Item) : Option Val :=
  dget item "accion"

/-- Python `action == s` for a string literal `s`. -/
def actionIs (a : Option Val) (s : String) : Bool :=
  a == some (.str s)

/-- A per-row error record: 1-based row index and a field-keyed dict. -/
structure ErrEntry where
  fila : Nat
  errors : List (String × String)
deriving DecidableEq, Repr

/-- `any(e["fila"] == n for e in errs)`. -/
def hasFila (errs : List ErrEntry) (n : Nat) : Bool :=
  errs.any (fun e => e.fila == n)

/-- `value is None or (isinstance(value, str) and value.strip() == "")`,
where a `none` lookup is Python's `item.get(field)` returning `None`. -/
def isMissing (v : Option Val) : Bool :=
  match v with
  | none => true
  | some .null => true
  | some (.str s) => pyStrip s == ""

/-- The required-field set: the descriptor's full set, narrowed to just
`codigo_identificacion` for actions M and E (lines 126-127 / 228-229). -/
def requiredFieldsFor (cfg : ResourceConfig) (a : Option Val) : List String :=
  if actionIs a "M" || actionIs a "E" then ["codigo_identificacion"]
  else cfg.required_fields

/-- The required-field loop shared by `validate_item_fields` and
`validate_client_item`: one error per missing required field. -/
def requiredFieldErrors (cfg : ResourceConfig) (item : Item) (a : Option Val) :
    List (String × String) :=
  (requiredFieldsFor cfg a).foldl
    (fun acc f =>
      if isMissing (dget item f) then dset acc f (msgRequired f a) else acc)
    []

/-- `validate_item_fields` (lines 122-134), identical logic to the
required-field part of `validate_client_item`. -/
def validate_item_fields (item : Item) (a : Option Val) (cfg : ResourceConfig) :
    List (String × String) :=
  requiredFieldErrors cfg item a

/-! ## The `validate_and_process_client_data` validation phase -/

/-- `check_existence_in_db` (lines 245-254): zero matches adds a
"no existe" error under `codigo_identificacion`. -/
def check_existence_in_db (db : DB) (c : Val)
    (fieldErrors : List (String × String)) (a : Option Val) :
    List (String × String) :=
  if countMatching db c = 0 then
    dset fieldErrors "codigo_identificacion" (msgNoExiste c a)
  else fieldErrors

/-- `validate_client_item` (lines 222-242): required fields, then for M/E
with the identifier present and not already flagged, the existence check. -/
def validate_client_item (cfg : ResourceConfig) (db : DB) (item : Item)
    (a : Option Val) : List (String × String) :=
  let fe := requiredFieldErrors cfg item a
  if ((actionIs a "M" || actionIs a "E") && dhas item "codigo_identificacion"
      && (dget fe "codigo_identificacion").isNone) = true then
    check_existence_in_db db ((dget item "codigo_identificacion").getD .null) fe a
  else fe

/-- The row loop of `validate_client_data` (lines 202-219), with the
1-based row index carried explicitly. -/
def validateRows (cfg : ResourceConfig) (db : DB) :
    Nat → List Item → List ErrEntry
  | _, [] => []
  | idx, item :: rest =>
      let fe := validate_client_item cfg db item (actionOf item)
      (if fe.isEmpty then [] else [ErrEntry.mk (idx + 1) fe])
        ++ validateRows cfg db (idx + 1) rest

/-- `validate_client_data` (lines 202-219). -/
def validate_client_data (cfg : ResourceConfig) (db : DB) (data : List Item) :
    List ErrEntry :=
  validateRows cfg db 0 data

/-! ## Action Executor (`handle_insert` / `handle_update` / `handle_delete`)

A handler's raised Python exception is the `Except.error` case; the
message is what `str(e)` would produce (a `KeyError`'s quoted key, or the
database driver's syntax error for an `UPDATE` whose `SET` clause is
empty — SQL refuses `UPDATE t SET WHERE ...`). -/

/-- What a handler returns on the happy path: row-level success flag, an
optional row-indexed error, the table after the statement, and the
(possibly mutated) input record. -/
structure HandlerRes where
  success : Bool
  error : Option ErrEntry
  db : DB
  item : Item
deriving DecidableEq, Repr

/-- Lines 314-315 of `handle_insert`: `item['id_cliente'] = str(uuid4())`
then `item.setdefault('numero_tarjeta', None)`, mutating the caller's
record in place. -/
def insertMutate (item : Item) (uuid : String) : Item :=
  dsetdefault (dset item "id_cliente" (Val.str uuid)) "numero_tarjeta" Val.null

/-- Lines 316-323: the inserted row pairs every descriptor column except
`id_parametrizacion_trama` with `item.get(col)` (`None` when absent). -/
def insertedRow (cfg : ResourceConfig) (item : Item) : Row :=
  (cfg.columns.filter (fun c => c ≠ "id_parametrizacion_trama")).map
    (fun c => (c, (dget item c).getD Val.null))

/-- `handle_insert` (lines 312-325). -/
def handle_insert (cfg : ResourceConfig) (db : DB) (item : Item)
    (uuid : String) : Except String HandlerRes :=
  let item' := insertMutate item uuid
  .ok ⟨true, none, db ++ [insertedRow cfg item'], item'⟩

/-- Lines 330-335 of `handle_update`: the `SET` columns, in descriptor
column order, each descriptor column present in the row except
`codigo_identificacion`, paired with its value. -/
def updateSets (cfg : ResourceConfig) (item : Item) : List (String × Val) :=
  cfg.columns.filterMap (fun c =>
    if (dhas item c && c != "codigo_identificacion") = true then
      some (c, (dget item c).getD Val.null)
    else none)

/-- Apply a `SET` list to one row. -/
def applyUpdate (row : Row) (sets : List (String × Val)) : Row :=
  sets.foldl (fun r p => dset r p.1 p.2) row

/-- `UPDATE ... SET ... WHERE codigo_identificacion = %s`: the new table
and the affected-row count. -/
def runUpdate (db : DB) (sets : List (String × Val)) (c : Val) : DB × Nat :=
  (db.map (fun r => if rowCodigoMatches r c then applyUpdate r sets else r),
   countMatching db c)

/-- `handle_update` (lines 328-353).  `item["codigo_identificacion"]`
raises `KeyError` when absent; an empty `SET` list makes the statement
text malformed, so `cursor.execute` raises; otherwise zero affected rows
is reported as a row failure with a "general" error. -/
def handle_update (cfg : ResourceConfig) (db : DB) (item : Item)
    (idx : Nat) : Except String HandlerRes :=
  let sets := updateSets cfg item
  match dget item "codigo_identificacion" with
  | none => .error "'codigo_identificacion'"
  | some c =>
      if sets.isEmpty then .error "syntax error at or near \"WHERE\""
      else
        let res := runUpdate db sets c
        if res.2 > 0 then .ok ⟨true, none, res.1, item⟩
        else
          .ok ⟨false, some ⟨idx + 1, [("general", msgNoUpdate c)]⟩, res.1, item⟩

/-- `DELETE FROM ... WHERE codigo_identificacion = %s`. -/
def runDelete (db : DB) (c : Val) : DB × Nat :=
  (db.filter (fun r => !rowCodigoMatches r c), countMatching db c)

/-- `handle_delete` (lines 356-372). -/
def handle_delete (db : DB) (item : Item) (idx : Nat) :
    Except String HandlerRes :=
  match dget item "codigo_identificacion" with
  | none => .error "'codigo_identificacion'"
  | some c =>
      let res := runDelete db c
      if res.2 > 0 then .ok ⟨true, none, res.1, item⟩
      else
        .ok ⟨false, some ⟨idx + 1, [("general", msgNoDelete c)]⟩, res.1, item⟩

/-- The `try` body of `process_client_item` (lines 295-301): dispatch on
the action tag; `none` when no branch matches (Python falls through and
returns `None`). -/
def runAction (cfg : ResourceConfig) (db : DB) (item : Item) (idx : Nat)
    (uuid : String) : Option (Except String HandlerRes) :=
  let a := actionOf item
  if actionIs a "A" then some (handle_insert cfg db item uuid)
  else if actionIs a "M" then some (handle_update cfg db item idx)
  else if actionIs a "E" then some (handle_delete db item idx)
  else none

/-- The `except` clause (lines 302-309): any raised exception becomes a
row failure whose error dict holds one "general" entry at the row's
1-based index; the table is left as it was before the statement. -/
def catchProcess (db : DB) (item : Item) (idx : Nat) :
    Except String HandlerRes → HandlerRes
  | .ok r => r
  | .error e => ⟨false, some ⟨idx + 1, [("general", msgProcess e)]⟩, db, item⟩

/-- `process_client_item` (lines 293-309). -/
def process_client_item (cfg : ResourceConfig) (db : DB) (item : Item)
    (idx : Nat) (uuid : String) : Option HandlerRes :=
  (runAction cfg db item idx uuid).map (catchProcess db item idx)

/-! ## Reconciliation Orchestrator -/

/-- What `process_valid_client_data` returns (lines 285-290), plus the
final table state threaded through the cursor. -/
structure ProcSummary where
  inserted : Nat
  updated : Nat
  deleted : Nat
  processing_errors : List ErrEntry
  db : DB
deriving DecidableEq, Repr

/-- How one executed row's outcome enters the running tallies of
`process_valid_client_data` (lines 275-283): on success the counter of
the row's action is incremented, on failure the row's error is prepended
to the errors accumulated for the remaining rows. -/
def headCombine (item : Item) (out : HandlerRes) (idx : Nat)
    (s : ProcSummary) : ProcSummary :=
  if out.success then
    if actionIs (actionOf item) "A" then { s with inserted := s.inserted + 1 }
    else if actionIs (actionOf item) "M" then { s with updated := s.updated + 1 }
    else if actionIs (actionOf item) "E" then { s with deleted := s.deleted + 1 }
    else s
  else
    { s with processing_errors :=
        (out.error.getD ⟨idx + 1, []⟩) :: s.processing_errors }

/-- The row loop of `process_valid_client_data` (lines 266-283): skip
rows whose 1-based index appears in the validation errors, otherwise run
the row's action, incrementing the action's counter on success or
appending the row's error on failure.  `none` models the `TypeError`
Python would raise when `process_client_item` returns `None`.  `uuidGen`
supplies the fresh surrogate key an Add at a given row would generate. -/
def processRows (cfg : ResourceConfig) (uuidGen : Nat → String)
    (verrs : List ErrEntry) : DB → Nat → List Item → Option ProcSummary
  | db, _, [] => some ⟨0, 0, 0, [], db⟩
  | db, idx, item :: rest =>
      if hasFila verrs (idx + 1) then
        processRows cfg uuidGen verrs db (idx + 1) rest
      else
        match process_client_item cfg db item idx (uuidGen idx) with
        | none => none
        | some out =>
            match processRows cfg uuidGen verrs out.db (idx + 1) rest with
            | none => none
            | some s => some (headCombine item out idx s)

/-- `process_valid_client_data` (lines 257-290). -/
def process_valid_client_data (cfg : ResourceConfig) (db : DB)
    (data : List Item) (validation_errors : List ErrEntry)
    (uuidGen : Nat → String) : Option ProcSummary :=
  processRows cfg uuidGen validation_errors db 0 data

/-- The dict returned by `validate_and_process_client_data`
(lines 194-199). -/
structure BatchResult where
  inserted_count : Nat
  updated_count : Nat
  deleted_count : Nat
  errors : List ErrEntry
deriving DecidableEq, Repr

/-- `validate_and_process_client_data` (lines 188-199): validate the
whole batch against the incoming table state, then execute the surviving
rows; the error list is validation errors followed by processing
errors. -/
def validate_and_process_client_data (cfg : ResourceConfig) (db : DB)
    (data : List Item) (uuidGen : Nat → String) : Option BatchResult :=
  let verrs := validate_client_data cfg db data
  match process_valid_client_data cfg db data verrs uuidGen with
  | none => none
  | some s =>
      some ⟨s.inserted, s.updated, s.deleted, verrs ++ s.processing_errors⟩

/-- The per-item structural guard of `handle_post_clientes`
(`lambda_function.py` lines 37-39): the action tag is present and one of
A, E, M. -/
def actionValid (item : Item) : Bool :=
  match dget item "accion" with
  | some (.str s) => s = "A" || s = "E" || s = "M"
  | _ => false

/-- The whole-batch structural guard of `handle_post_clientes`. -/
def structuralActionsOk (data : List Item) : Bool :=
  data.all actionValid

/-! ## The `validate_data` pipeline (the `validaciones` endpoint) -/

/-- The body of `validate_actions`' loop (lines 77-86): the row is flagged
when `accion` is absent or not one of A, E, M. -/
def validateActionsGo : Nat → List Item → List ErrEntry
  | _, [] => []
  | idx, item :: rest =>
      (if actionValid item then []
       else [ErrEntry.mk (idx + 1) [("accion", msgAccion)]])
        ++ validateActionsGo (idx + 1) rest

/-- `validate_actions` (lines 77-86). -/
def validate_actions (data : List Item) : List ErrEntry :=
  validateActionsGo 0 data

/-- Which batch identifier one row contributes to
`count_codigo_occurrences`' dict: its `codigo_identificacion` when the
action is A, M or E and the value is a truthy (non-empty) string. -/
def countedCodigo (item : Item) : Option String :=
  match dget item "accion" with
  | some (.str a) =>
      if a = "A" || a = "M" || a = "E" then
        match dget item "codigo_identificacion" with
        | some (.str c) => if c = "" then none else some c
        | _ => none
      else none
  | _ => none

/-- `count_codigo_occurrences` (lines 89-97), read back through
`counts.get(c, 0)`. -/
def count_codigo_occurrences (data : List Item) (c : String) : Nat :=
  data.countP (fun item => countedCodigo item == some c)

/-- `counts.get(item["codigo_identificacion"], 0)`: the dict is keyed by
truthy strings only, so a `None` value reads 0. -/
def countsOf (counts : String → Nat) (v : Val) : Nat :=
  match v with
  | .str s => counts s
  | .null => 0

/-- The two-digit-in-[1,20] test of `validate_tipo_identificacion`
(line 143). -/
def tipoValid (s : String) : Bool :=
  s.data.length = 2 && s.data.all Char.isDigit && 1 ≤ pyInt s && pyInt s ≤ 20

/-- `validate_tipo_identificacion` (lines 137-145): only for A/M, only
when the field is present, only when its value is truthy. -/
def validate_tipo_identificacion (item : Item) (a : Option Val) :
    List (String × String) :=
  if (actionIs a "A" || actionIs a "M") && dhas item "tipo_identificacion" then
    match dget item "tipo_identificacion" with
    | some (.str s) =>
        if s ≠ "" && !tipoValid s then [("tipo_identificacion", msgTipo)] else []
    | _ => []
  else []

/-- The anchored regex `^\d(4)-\d(2)-\d(2)$` of line 154 (braces written
as round brackets here), as a character-by-character test. -/
def isDatePattern (s : String) : Bool :=
  match s.toList with
  | [y1, y2, y3, y4, d1, m1, m2, d2, a1, a2] =>
      y1.isDigit && y2.isDigit && y3.isDigit && y4.isDigit && d1 = '-'
        && m1.isDigit && m2.isDigit && d2 = '-' && a1.isDigit && a2.isDigit
  | _ => false

/-- `validate_fecha_afiliacion` (lines 148-157). -/
def validate_fecha_afiliacion (item : Item) (a : Option Val) :
    List (String × String) :=
  if (actionIs a "A" || actionIs a "M") && dhas item "fecha_afiliacion" then
    match dget item "fecha_afiliacion" with
    | some (.str s) =>
        if s ≠ "" && !isDatePattern s then [("fecha_afiliacion", msgFecha)] else []
    | _ => []
  else []

/-- `validate_database_operations` (lines 160-185): existence for M/E;
for A, the in-batch duplication check first, and only in its `else`
branch the already-exists check against the table. -/
def validate_database_operations (db : DB) (item : Item) (a : Option Val)
    (counts : String → Nat) : List (String × String) :=
  let fe : List (String × String) := []
  let fe :=
    if (actionIs a "M" || actionIs a "E") && dhas item "codigo_identificacion" then
      let c := (dget item "codigo_identificacion").getD Val.null
      if countMatching db c = 0 then
        dset fe "codigo_identificacion" (msgNoExiste c a)
      else fe
    else fe
  if actionIs a "A" && dhas item "codigo_identificacion" then
    let c := (dget item "codigo_identificacion").getD Val.null
    if countsOf counts c > 1 then dset fe "codigo_identificacion" (msgDuplicado c)
    else if countMatching db c > 0 then
      dset fe "codigo_identificacion" (msgYaExiste c)
    else fe
  else fe

/-- The per-row error dict built inside `validate_items` (lines 109-115):
required fields, then the three `update` merges. -/
def itemFieldErrors (cfg : ResourceConfig) (db : DB) (counts : String → Nat)
    (item : Item) : List (String × String) :=
  let a := actionOf item
  let fe := validate_item_fields item a cfg
  let fe := dupdate fe (validate_tipo_identificacion item a)
  let fe := dupdate fe (validate_fecha_afiliacion item a)
  dupdate fe (validate_database_operations db item a counts)

/-- The row loop of `validate_items` (lines 100-119): rows already
flagged by `validate_actions` are skipped. -/
def validateItemsGo (cfg : ResourceConfig) (db : DB) (counts : String → Nat)
    (existing : List ErrEntry) : Nat → List Item → List ErrEntry
  | _, [] => []
  | idx, item :: rest =>
      (if hasFila existing (idx + 1) then []
       else
         let fe := itemFieldErrors cfg db counts item
         if fe.isEmpty then [] else [ErrEntry.mk (idx + 1) fe])
        ++ validateItemsGo cfg db counts existing (idx + 1) rest

/-- `validate_items` (lines 100-119). -/
def validate_items (cfg : ResourceConfig) (db : DB) (counts : String → Nat)
    (existing : List ErrEntry) (data : List Item) : List ErrEntry :=
  validateItemsGo cfg db counts existing 0 data

/-- `validate_data` (lines 62-74): action errors, then the per-item
errors for unflagged rows; `valid_count = len(data) - len(errors)`. -/
def validate_data (cfg : ResourceConfig) (db : DB) (data : List Item) :
    Int × List ErrEntry :=
  let errors1 := validate_actions data
  let counts := count_codigo_occurrences data
  let errors := errors1 ++ validate_items cfg db counts errors1 data
  ((data.length : Int) - (errors.length : Int), errors)

/-- The bound-parameter list of the `UPDATE` statement (lines 330-337):
the `SET` values in clause order, then the business identifier for the
`WHERE` clause. -/
def updateParams (cfg : ResourceConfig) (item : Item) (c : Val) : List Val :=
  (updateSets cfg item).map Prod.snd ++ [c]

/-! ## Association-list lemmas -/

theorem dget_dset_self {α : Type} (d : List (String × α)) (k : String) (v : α) :
    dget (dset d k v) k = some v := by
  induction d with
  | nil => simp [dset, dget]
  | cons p rest ih =>
      obtain ⟨k', v'⟩ := p
      by_cases h : k' = k
      · simp [dset, dget, h]
      · simp [dset, dget, h, ih]

theorem dget_dset_ne {α : Type} (d : List (String × α)) (k k' : String) (v : α)
    (h : k ≠ k') : dget (dset d k v) k' = dget d k' := by
  induction d with
  | nil => simp [dset, dget, h]
  | cons p rest ih =>
      obtain ⟨k₀, v₀⟩ := p
      by_cases h₀ : k₀ = k
      · subst h₀; simp [dset, dget, h]
      · by_cases h₁ : k₀ = k'
        · simp [dset, dget, h₀, h₁, Ne.symm h]
        · simp [dset, dget, h₀, h₁, ih]

theorem dset_ne_nil {α : Type} (d : List (String × α)) (k : String) (v : α) :
    dset d k v ≠ [] := by
  cases d with
  | nil => simp [dset]
  | cons p rest =>
      obtain ⟨k₀, v₀⟩ := p
      by_cases h : k₀ = k <;> simp [dset, h]

theorem dget_append_left {α : Type} (d e : List (String × α)) (k : String)
    (v : α) (h : dget d k = some v) : dget (d ++ e) k = some v := by
  induction d with
  | nil => simp [dget] at h
  | cons p rest ih =>
      obtain ⟨k₀, v₀⟩ := p
      by_cases h₀ : k₀ = k
      · simp_all [dget]
      · simp_all [dget]

theorem dget_append_right {α : Type} (d e : List (String × α)) (k : String)
    (h : dget d k = none) : dget (d ++ e) k = dget e k := by
  induction d with
  | nil => simp [dget]
  | cons p rest ih =>
      obtain ⟨k₀, v₀⟩ := p
      by_cases h₀ : k₀ = k
      · simp_all [dget]
      · simp_all [dget]

theorem dget_dsetdefault_self {α : Type} (d : List (String × α)) (k : String)
    (v : α) : dget (dsetdefault d k v) k = some ((dget d k).getD v) := by
  unfold dsetdefault dhas
  cases h : dget d k with
  | none =>
      simp only [h, Option.isSome_none, Bool.false_eq_true, if_false]
      rw [dget_append_right d _ k h]; simp [dget]
  | some w => simp [h]

theorem dget_dsetdefault_ne {α : Type} (d : List (String × α)) (k k' : String)
    (v : α) (h : k ≠ k') : dget (dsetdefault d k v) k' = dget d k' := by
  unfold dsetdefault dhas
  cases hd : dget d k with
  | none =>
      simp only [hd, Option.isSome_none, Bool.false_eq_true, if_false]
      cases hd' : dget d k' with
      | none => rw [dget_append_right d _ k' hd']; simp [dget, h]
      | some w => rw [dget_append_left d _ k' w hd']
  | some w => simp [hd]

/-- Ceiling-division bounds for `(a + b - 1) / b`. -/
theorem ceil_div_bounds (a b : Nat) (hb : 0 < b) (ha : 0 < a) :
    1 ≤ (a + b - 1) / b ∧ a ≤ ((a + b - 1) / b) * b
      ∧ ((a + b - 1) / b - 1) * b < a := by
  obtain ⟨q, hq⟩ : ∃ q, (a + b - 1) / b = q := ⟨_, rfl⟩
  have hdm : b * q + (a + b - 1) % b = a + b - 1 := by
    rw [← hq]; exact Nat.div_add_mod _ _
  have hml : (a + b - 1) % b < b := Nat.mod_lt _ hb
  obtain ⟨r, hr⟩ : ∃ r, (a + b - 1) % b = r := ⟨_, rfl⟩
  rw [hr] at hdm hml
  obtain ⟨m, hm⟩ : ∃ m, b * q = m := ⟨_, rfl⟩
  rw [hm] at hdm
  have h1 : 1 ≤ q := by
    rcases Nat.eq_zero_or_pos q with h0 | hqp
    · subst h0; rw [Nat.mul_zero] at hm; omega
    · exact hqp
  refine ⟨by rw [hq]; exact h1, ?_, ?_⟩
  · rw [hq, Nat.mul_comm, hm]; omega
  · rw [hq, Nat.sub_mul, Nat.one_mul, Nat.mul_comm, hm]; omega

/-- C7: the Pager computes `currentPage = 1` when the raw page parameter
is absent, non-numeric or parses below 1 and the parsed integer
otherwise; `offset = (page - 1) * pageSize`; `totalPages` is the ceiling
of `totalRecords / pageSize` with a floor of 1 at zero records; and the
two concrete instances: `page="0"` with 5 records and page size 10 gives
`currentPage = 1`, `totalPages = 1`, and `page="abc"` behaves exactly
like an absent page parameter. -/
theorem c7_pager (qp : QueryParams) (tr limit : Nat) (hb : 0 < limit) :
    (dget qp "page" = none → pageOf qp = 1)
    ∧ (∀ s, dget qp "page" = some s → pyIsDigit s = false → pageOf qp = 1)
    ∧ (∀ s, dget qp "page" = some s → pyIsDigit s = true → pyInt s < 1 →
        pageOf qp = 1)
    ∧ (∀ s, dget qp "page" = some s → pyIsDigit s = true → 1 ≤ pyInt s →
        pageOf qp = pyInt s)
    ∧ offsetOf qp limit = (pageOf qp - 1) * limit
    ∧ 1 ≤ totalPagesOf tr limit
    ∧ (tr = 0 → totalPagesOf tr limit = 1)
    ∧ (0 < tr → tr ≤ totalPagesOf tr limit * limit
        ∧ (totalPagesOf tr limit - 1) * limit < tr)
    ∧ (get_paginated_pagination clientesConfig [("page", "0")] 5).currentPage = 1
    ∧ (get_paginated_pagination clientesConfig [("page", "0")] 5).totalPages = 1
    ∧ pageOf [("page", "abc")] = pageOf [] := by
  refine ⟨?_, ?_, ?_, ?_, rfl, ?_, ?_, ?_, by decide, by decide, by decide⟩
  · intro h
    unfold pageOf
    rw [h]
    decide
  · intro s hs hd
    unfold pageOf
    rw [hs]
    simp [Option.getD_some, hd]
  · intro s hs hd hlt
    unfold pageOf
    rw [hs]
    simp [Option.getD_some, hd, hlt]
  · intro s hs hd hge
    unfold pageOf
    rw [hs]
    have hn : ¬ pyInt s < 1 := by omega
    simp [Option.getD_some, hd, hn]
  · unfold totalPagesOf
    rcases Nat.eq_zero_or_pos tr with h0 | hpos
    · simp [h0]
    · simp only [if_pos hpos]
      exact (ceil_div_bounds tr limit hb hpos).1
  · intro h0; simp [totalPagesOf, h0]
  · intro hpos
    unfold totalPagesOf
    simp only [if_pos hpos]
    exact ⟨(ceil_div_bounds tr limit hb hpos).2.1,
           (ceil_div_bounds tr limit hb hpos).2.2⟩

/-- Witness for `c7_pager` at a concrete input. -/
theorem c7_pager_witness :
    0 < 10 ∧ 1 ≤ totalPagesOf 5 10 :=
  ⟨by decide, (c7_pager [] 5 10 (by decide)).2.2.2.2.2.1⟩

/-- Modelled from the spec's words, for the refinement comparison of C8:
the ordered bound terms the Predicate Builder should emit — one per
search-enabled field whose raw value is non-empty after trimming, each
the trimmed, lower-cased term with a trailing wildcard. -/
def specSearchParams (fields : List String) (qp : QueryParams) : List String :=
  fields.filterMap (fun f =>
    (dget qp f).bind (fun v =>
      if pyStrip v = "" then none else some (pyLower (pyStrip v) ++ "%")))

theorem searchFilters_map_snd (fields : List String) (qp : QueryParams) :
    (searchFilters fields qp).map Prod.snd = specSearchParams fields qp := by
  unfold searchFilters specSearchParams
  rw [List.map_filterMap]
  congr 1
  funext f
  cases h : dget qp f with
  | none => simp
  | some v =>
      by_cases ht : pyStrip v = "" <;> simp [ht]

theorem searchFilters_length (fields : List String) (qp : QueryParams) :
    (searchFilters fields qp).length
      = (fields.filter (fun f =>
          match dget qp f with
          | some v => pyStrip v != ""
          | none => false)).length := by
  induction fields with
  | nil => rfl
  | cons f rest ih =>
      simp only [searchFilters, List.filterMap_cons, List.filter_cons] at *
      cases h : dget qp f with
      | none => simpa [h] using ih
      | some v =>
          by_cases ht : pyStrip v = ""
          · simp [h, ht, ih]
          · simp [h, ht, ih]

/-- C8: the Predicate Builder emits one case-insensitive starts-with
predicate per search-enabled field whose value is non-empty after
trimming, binding the trimmed, lower-cased term with a trailing
wildcard (refinement against `specSearchParams`); a field counts exactly
when present with a non-blank value; `" Juan "` binds exactly `"juan%"`
and a blank value emits nothing; and with no predicate at all the
generated SQL carries no `WHERE` clause. -/
theorem c8_predicate_builder (cfg : ResourceConfig) (qp : QueryParams) :
    (searchFilters cfg.search_fields qp).map Prod.snd
        = specSearchParams cfg.search_fields qp
    ∧ (searchFilters cfg.search_fields qp).length
        = (cfg.search_fields.filter (fun f =>
            match dget qp f with
            | some v => pyStrip v != ""
            | none => false)).length
    ∧ ((build_where cfg qp).1 = [] → whereSqlOf (build_where cfg qp).1 = "")
    ∧ searchFilters ["nombre"] [("nombre", " Juan ")]
        = [("LOWER(nombre::text) LIKE %s", "juan%")]
    ∧ searchFilters ["nombre"] [("nombre", "   ")] = [] := by
  refine ⟨searchFilters_map_snd _ _, searchFilters_length _ _, ?_, ?_, ?_⟩
  · intro h; rw [h]; rfl
  · rfl
  · rfl

/-- Witness for `c8_predicate_builder` at a concrete input. -/
theorem c8_predicate_builder_witness :
    (build_where clientesConfig []).1 = []
      ∧ whereSqlOf (build_where clientesConfig []).1 = "" :=
  ⟨by rfl, (c8_predicate_builder clientesConfig []).2.2.1 (by rfl)⟩

/-- C9: executing an Add mutates the caller's record in place:
afterwards `id_cliente` holds the freshly generated UUID (overwriting
any caller-supplied value), `numero_tarjeta` keeps its value when
present and becomes null when absent, and every other field is
unchanged; `handle_insert` returns exactly this mutated record. -/
theorem c9_handle_insert_frame (cfg : ResourceConfig) (db : DB) (item : Item)
    (uuid : String) :
    (∃ r, handle_insert cfg db item uuid = .ok r
        ∧ r.item = insertMutate item uuid ∧ r.success = true)
    ∧ dget (insertMutate item uuid) "id_cliente" = some (Val.str uuid)
    ∧ dget (insertMutate item uuid) "numero_tarjeta"
        = some ((dget item "numero_tarjeta").getD Val.null)
    ∧ (∀ k, k ≠ "id_cliente" → k ≠ "numero_tarjeta" →
        dget (insertMutate item uuid) k = dget item k) := by
  refine ⟨⟨_, rfl, rfl, rfl⟩, ?_, ?_, ?_⟩
  · unfold insertMutate
    rw [dget_dsetdefault_ne _ _ _ _ (by decide)]
    exact dget_dset_self _ _ _
  · unfold insertMutate
    rw [dget_dsetdefault_self, dget_dset_ne _ _ _ _ (by decide)]
  · intro k h1 h2
    unfold insertMutate
    rw [dget_dsetdefault_ne _ _ _ _ (Ne.symm h2),
        dget_dset_ne _ _ _ _ (Ne.symm h1)]

/-- Witness for `c9_handle_insert_frame` at a concrete input. -/
theorem c9_handle_insert_frame_witness :
    dget (insertMutate [("accion", Val.str "A")] "u") "accion"
      = dget [("accion", Val.str "A")] "accion" :=
  (c9_handle_insert_frame clientesConfig [] [("accion", Val.str "A")] "u").2.2.2
    "accion" (by decide) (by decide)

/-! ## C5: row-scoped failure isolation -/

/-- Pointwise combination of two processing summaries: the tallies of a
batch prefix followed by the tallies of the remaining rows. -/
def combSummaries (s₁ s₂ : ProcSummary) : ProcSummary :=
  { inserted := s₁.inserted + s₂.inserted
    updated := s₁.updated + s₂.updated
    deleted := s₁.deleted + s₂.deleted
    processing_errors := s₁.processing_errors ++ s₂.processing_errors
    db := s₂.db }

theorem headCombine_db (item : Item) (out : HandlerRes) (idx : Nat)
    (s : ProcSummary) : (headCombine item out idx s).db = s.db := by
  unfold headCombine
  repeat first | rfl | split

theorem headCombine_combSummaries (item : Item) (out : HandlerRes) (idx : Nat)
    (s₁ s₂ : ProcSummary) :
    headCombine item out idx (combSummaries s₁ s₂)
      = combSummaries (headCombine item out idx s₁) s₂ := by
  unfold headCombine combSummaries
  by_cases hs : out.success = true
  · by_cases hA : actionIs (actionOf item) "A" = true
    · simp [hs, hA, Nat.add_right_comm]
    · by_cases hM : actionIs (actionOf item) "M" = true
      · simp [hs, hA, hM, Nat.add_right_comm]
      · by_cases hE : actionIs (actionOf item) "E" = true
        · simp [hs, hA, hM, hE, Nat.add_right_comm]
        · simp [hs, hA, hM, hE]
  · simp [hs]

theorem processRows_append (cfg : ResourceConfig) (uuidGen : Nat → String)
    (verrs : List ErrEntry) :
    ∀ (xs ys : List Item) (db : DB) (idx : Nat),
    processRows cfg uuidGen verrs db idx (xs ++ ys)
      = match processRows cfg uuidGen verrs db idx xs with
        | none => none
        | some s₁ =>
            match processRows cfg uuidGen verrs s₁.db (idx + xs.length) ys with
            | none => none
            | some s₂ => some (combSummaries s₁ s₂)
  | [], ys, db, idx => by
      simp only [List.nil_append, List.length_nil, Nat.add_zero, processRows]
      cases hy : processRows cfg uuidGen verrs db idx ys with
      | none => rfl
      | some s₂ => cases s₂; simp [combSummaries]
  | x :: xs, ys, db, idx => by
      simp only [List.cons_append, processRows]
      by_cases hskip : hasFila verrs (idx + 1) = true
      · simp only [hskip, if_true]
        rw [List.append_eq]
        have := processRows_append cfg uuidGen verrs xs ys db (idx + 1)
        rw [this]
        have hlen : idx + 1 + xs.length = idx + (xs.length + 1) := by omega
        rw [hlen]
        simp only [List.length_cons]
      · simp only [hskip, if_false, Bool.false_eq_true]
        cases hpci : process_client_item cfg db x idx (uuidGen idx) with
        | none => rfl
        | some out =>
            dsimp only
            rw [List.append_eq]
            have := processRows_append cfg uuidGen verrs xs ys out.db (idx + 1)
            rw [this]
            have hlen : idx + 1 + xs.length = idx + (xs.length + 1) := by omega
            rw [hlen]
            cases hxs : processRows cfg uuidGen verrs out.db (idx + 1) xs with
            | none => rfl
            | some s₁ =>
                simp only [headCombine_db, List.length_cons]
                cases hys : processRows cfg uuidGen verrs s₁.db
                    (idx + (xs.length + 1)) ys with
                | none => rfl
                | some s₂ =>
                    simp only []
                    rw [headCombine_combSummaries]

/-- C5: the Action Executor never propagates an execution exception —
whatever exception the dispatched handler raises, `process_client_item`
returns a failure result whose error is keyed "general" at the row's
1-based index and leaves the table untouched; and the batch loop is
compositional, so the rows after any prefix (failures included) are
always processed, from the state the prefix left behind. -/
theorem c5_row_scoped_failures :
    (∀ (cfg : ResourceConfig) (db : DB) (item : Item) (idx : Nat)
       (uuid : String) (e : String),
       runAction cfg db item idx uuid = some (.error e) →
       process_client_item cfg db item idx uuid
         = some ⟨false, some ⟨idx + 1, [("general", msgProcess e)]⟩, db, item⟩)
    ∧ (∀ (cfg : ResourceConfig) (uuidGen : Nat → String)
         (verrs : List ErrEntry) (xs ys : List Item) (db : DB) (idx : Nat),
       processRows cfg uuidGen verrs db idx (xs ++ ys)
         = match processRows cfg uuidGen verrs db idx xs with
           | none => none
           | some s₁ =>
               match processRows cfg uuidGen verrs s₁.db (idx + xs.length) ys with
               | none => none
               | some s₂ => some (combSummaries s₁ s₂)) := by
  constructor
  · intro cfg db item idx uuid e h
    unfold process_client_item
    rw [h]
    rfl
  · intro cfg uuidGen verrs xs ys db idx
    exact processRows_append cfg uuidGen verrs xs ys db idx

/-- Witness for `c5_row_scoped_failures` at a concrete input: a Modify
row with an empty `SET` clause raises, and the catch converts it. -/
theorem c5_row_scoped_failures_witness :
    runAction clientesConfig
        [[("codigo_identificacion", Val.str "C1")]]
        [("accion", Val.str "M"), ("codigo_identificacion", Val.str "C1")]
        0 "u"
      = some (.error "syntax error at or near \"WHERE\"")
    ∧ process_client_item clientesConfig
        [[("codigo_identificacion", Val.str "C1")]]
        [("accion", Val.str "M"), ("codigo_identificacion", Val.str "C1")]
        0 "u"
      = some ⟨false,
          some ⟨1, [("general",
            msgProcess "syntax error at or near \"WHERE\"")]⟩,
          [[("codigo_identificacion", Val.str "C1")]],
          [("accion", Val.str "M"), ("codigo_identificacion", Val.str "C1")]⟩ :=
  ⟨by rfl,
   c5_row_scoped_failures.1 clientesConfig
     [[("codigo_identificacion", Val.str "C1")]]
     [("accion", Val.str "M"), ("codigo_identificacion", Val.str "C1")]
     0 "u" "syntax error at or near \"WHERE\"" (by rfl)⟩

/-! ## C6: the dynamic-column UPDATE -/

theorem filterSets_map_fst (item : Item) (cols : List String) :
    (cols.filterMap (fun c =>
      if (dhas item c && c != "codigo_identificacion") = true then
        some (c, (dget item c).getD Val.null)
      else none)).map Prod.fst
      = cols.filter (fun c => dhas item c && c != "codigo_identificacion") := by
  induction cols with
  | nil => rfl
  | cons c rest ih =>
      by_cases h : (dhas item c && c != "codigo_identificacion") = true
      · rw [List.filterMap_cons, if_pos h, List.map_cons, List.filter_cons,
            if_pos h, ih]
      · rw [List.filterMap_cons, if_neg h, List.filter_cons, if_neg h, ih]

theorem updateSets_map_fst (cfg : ResourceConfig) (item : Item) :
    (updateSets cfg item).map Prod.fst
      = cfg.columns.filter
          (fun c => dhas item c && c != "codigo_identificacion") := by
  unfold updateSets
  exact filterSets_map_fst item cfg.columns

theorem updateSets_mem_val (cfg : ResourceConfig) (item : Item) :
    ∀ p ∈ updateSets cfg item, dget item p.1 = some p.2 := by
  intro p hp
  unfold updateSets at hp
  rw [List.mem_filterMap] at hp
  obtain ⟨c, _, hf⟩ := hp
  by_cases h : (dhas item c && c != "codigo_identificacion") = true
  · rw [if_pos h] at hf
    have hd : (dget item c).isSome = true := by
      simp only [Bool.and_eq_true] at h
      exact h.1
    obtain ⟨v, hv⟩ := Option.isSome_iff_exists.mp hd
    injection hf with hf
    subst hf
    simp [hv]
  · rw [if_neg h] at hf
    exact absurd hf (by simp)

/-- C6: `handle_update` builds a `SET` clause over exactly the
descriptor columns present in the row except `codigo_identificacion`,
in descriptor column order, each bound to the row's value; the business
identifier is bound last, as the `WHERE` parameter; and zero affected
rows is reported as a row failure with a "general" error, not as
success. -/
theorem c6_handle_update (cfg : ResourceConfig) (db : DB) (item : Item)
    (idx : Nat) (c : Val)
    (hc : dget item "codigo_identificacion" = some c) :
    (updateSets cfg item).map Prod.fst
        = cfg.columns.filter
            (fun col => dhas item col && col != "codigo_identificacion")
    ∧ (∀ p ∈ updateSets cfg item, dget item p.1 = some p.2)
    ∧ updateParams cfg item c = (updateSets cfg item).map Prod.snd ++ [c]
    ∧ (updateParams cfg item c).getLast? = some c
    ∧ ((updateSets cfg item).isEmpty = false → countMatching db c = 0 →
        ∃ r, handle_update cfg db item idx = .ok r ∧ r.success = false
          ∧ r.error = some ⟨idx + 1, [("general", msgNoUpdate c)]⟩) := by
  refine ⟨updateSets_map_fst cfg item, updateSets_mem_val cfg item, rfl, ?_, ?_⟩
  · unfold updateParams
    exact List.getLast?_concat _
  · intro hne h0
    have heq : handle_update cfg db item idx
        = .ok ⟨false, some ⟨idx + 1, [("general", msgNoUpdate c)]⟩,
               (runUpdate db (updateSets cfg item) c).1, item⟩ := by
      unfold handle_update runUpdate
      rw [hc, h0]
      simp [hne, h0]
    exact ⟨_, heq, rfl, rfl⟩

/-! ## Row-membership lemmas for the validation pipelines -/

theorem hasFila_append (a b : List ErrEntry) (n : Nat) :
    hasFila (a ++ b) n = (hasFila a n || hasFila b n) := by
  unfold hasFila
  exact List.any_append

theorem hasFila_eq_false_iff (errs : List ErrEntry) (n : Nat) :
    hasFila errs n = false ↔ ∀ e ∈ errs, e.fila ≠ n := by
  unfold hasFila
  simp

theorem validateActionsGo_fila_ge :
    ∀ (data : List Item) (idx : Nat) (e : ErrEntry),
      e ∈ validateActionsGo idx data → idx + 1 ≤ e.fila
  | [], _, e, h => by simp [validateActionsGo] at h
  | item :: rest, idx, e, h => by
      unfold validateActionsGo at h
      rw [List.mem_append] at h
      rcases h with h | h
      · by_cases hv : actionValid item = true
        · simp [hv] at h
        · simp only [hv, Bool.false_eq_true, if_false, List.mem_singleton] at h
          subst h
          exact Nat.le.refl
      · have := validateActionsGo_fila_ge rest (idx + 1) e h
        omega

theorem validateActionsGo_skip :
    ∀ (data : List Item) (idx k : Nat) (item : Item),
      data.get? k = some item → actionValid item = true →
      hasFila (validateActionsGo idx data) (idx + k + 1) = false
  | [], idx, k, item, h, _ => by simp [List.get?] at h
  | x :: rest, idx, 0, item, h, hv => by
      have hx : x = item := by injection h
      subst hx
      unfold validateActionsGo
      rw [hasFila_append]
      have h1 : hasFila (if actionValid x then []
          else [ErrEntry.mk (idx + 1) [("accion", msgAccion)]]) (idx + 0 + 1)
          = false := by
        rw [hv, if_pos rfl]
        rfl
      have h2 : hasFila (validateActionsGo (idx + 1) rest) (idx + 0 + 1)
          = false := by
        rw [hasFila_eq_false_iff]
        intro e he
        have := validateActionsGo_fila_ge rest (idx + 1) e he
        omega
      rw [h1, h2]
      rfl
  | x :: rest, idx, k + 1, item, h, hv => by
      have hrec := validateActionsGo_skip rest (idx + 1) k item h hv
      unfold validateActionsGo
      rw [hasFila_append]
      have h1 : hasFila (if actionValid x then []
          else [ErrEntry.mk (idx + 1) [("accion", msgAccion)]])
          (idx + (k + 1) + 1) = false := by
        by_cases hvx : actionValid x = true
        · rw [hvx, if_pos rfl]; rfl
        · rw [if_neg (by simp [hvx])]
          rw [hasFila_eq_false_iff]
          intro e he
          rw [List.mem_singleton] at he
          subst he
          simp only []
          omega
      rw [h1]
      simp only [Bool.false_or]
      have h2 : idx + 1 + k + 1 = idx + (k + 1) + 1 := by omega
      rw [← h2]
      exact hrec

theorem validateItemsGo_mem (cfg : ResourceConfig) (db : DB)
    (counts : String → Nat) (existing : List ErrEntry) :
    ∀ (data : List Item) (idx k : Nat) (item : Item),
      data.get? k = some item → hasFila existing (idx + k + 1) = false →
      (itemFieldErrors cfg db counts item).isEmpty = false →
      ErrEntry.mk (idx + k + 1) (itemFieldErrors cfg db counts item)
        ∈ validateItemsGo cfg db counts existing idx data
  | [], idx, k, item, h, _, _ => by simp [List.get?] at h
  | x :: rest, idx, 0, item, h, hskip, hne => by
      have hx : x = item := by injection h
      subst hx
      unfold validateItemsGo
      rw [List.mem_append]
      left
      rw [hskip, if_neg (by simp)]
      have hn : itemFieldErrors cfg db counts x ≠ [] := by
        intro h0
        rw [h0] at hne
        simp at hne
      rw [if_neg (by simpa using hn)]
      exact List.mem_singleton.mpr rfl
  | x :: rest, idx, k + 1, item, h, hskip, hne => by
      have h2 : idx + 1 + k + 1 = idx + (k + 1) + 1 := by omega
      have hrec := validateItemsGo_mem cfg db counts existing rest (idx + 1) k
        item h (by rw [h2]; exact hskip) hne
      unfold validateItemsGo
      rw [List.mem_append]
      right
      rw [h2] at hrec
      exact hrec

/-! ## Counting occurrences inside one batch -/

theorem countP_pos_of_get? {α : Type} (p : α → Bool) :
    ∀ (l : List α) (k : Nat) (a : α),
      l.get? k = some a → p a = true → 1 ≤ l.countP p
  | [], k, a, h, _ => by simp [List.get?] at h
  | x :: rest, 0, a, h, hp => by
      have hx : x = a := by injection h
      subst hx
      rw [List.countP_cons]
      simp [hp]
  | x :: rest, k + 1, a, h, hp => by
      rw [List.countP_cons]
      have h1 := countP_pos_of_get? p rest k a h hp
      by_cases hx : p x = true
      · rw [if_pos hx]
        omega
      · rw [if_neg hx]
        omega

theorem countP_two_of_get? {α : Type} (p : α → Bool) :
    ∀ (l : List α) (i j : Nat) (a b : α),
      i < j → l.get? i = some a → l.get? j = some b →
      p a = true → p b = true → 2 ≤ l.countP p
  | [], i, j, a, b, _, hi, _, _, _ => by simp [List.get?] at hi
  | x :: rest, 0, j, a, b, hij, hi, hj, hpa, hpb => by
      have hx : x = a := by injection hi
      subst hx
      obtain ⟨j', rfl⟩ : ∃ j', j = j' + 1 := ⟨j - 1, by omega⟩
      rw [List.countP_cons]
      have h1 := countP_pos_of_get? p rest j' b hj hpb
      rw [if_pos hpa]
      omega
  | x :: rest, i + 1, j, a, b, hij, hi, hj, hpa, hpb => by
      obtain ⟨j', rfl⟩ : ∃ j', j = j' + 1 := ⟨j - 1, by omega⟩
      rw [List.countP_cons]
      have h1 := countP_two_of_get? p rest i j' a b (by omega) hi hj hpa hpb
      by_cases hx : p x = true
      · rw [if_pos hx]
        omega
      · rw [if_neg hx]
        omega

/-! ## The Add-row branches of `validate_database_operations` -/

theorem validate_database_operations_dup (db : DB) (item : Item)
    (counts : String → Nat) (c : String)
    (hc : dget item "codigo_identificacion" = some (Val.str c))
    (hcnt : 1 < counts c) :
    validate_database_operations db item (some (Val.str "A")) counts
      = [("codigo_identificacion", msgDuplicado (Val.str c))] := by
  unfold validate_database_operations dhas countsOf
  rw [hc]
  simp [actionIs, hcnt, dset]

theorem validate_database_operations_exists (db : DB) (item : Item)
    (counts : String → Nat) (c : String)
    (hc : dget item "codigo_identificacion" = some (Val.str c))
    (hcnt : ¬ 1 < counts c) (hdb : 0 < countMatching db (Val.str c)) :
    validate_database_operations db item (some (Val.str "A")) counts
      = [("codigo_identificacion", msgYaExiste (Val.str c))] := by
  unfold validate_database_operations dhas countsOf
  rw [hc]
  simp [actionIs, hcnt, hdb, dset, Nat.pos_iff_ne_zero.mp hdb]

theorem itemFieldErrors_last (cfg : ResourceConfig) (db : DB)
    (counts : String → Nat) (item : Item) (k : String) (v : String)
    (hops : validate_database_operations db item (actionOf item) counts
        = [(k, v)]) :
    itemFieldErrors cfg db counts item
      = dset (dupdate (dupdate (validate_item_fields item (actionOf item) cfg)
          (validate_tipo_identificacion item (actionOf item)))
          (validate_fecha_afiliacion item (actionOf item))) k v := by
  unfold itemFieldErrors
  dsimp only
  rw [hops]
  rfl

/-- Any Add-tagged row whose database-operations check yields exactly one
`codigo_identificacion` error contributes a row-indexed entry to
`validate_data`'s error list whose `codigo_identificacion` message is
that error (the last `update` wins over any earlier message for the same
key). -/
theorem validate_data_add_entry (cfg : ResourceConfig) (db : DB)
    (data : List Item) (k : Nat) (item : Item) (msg : String)
    (hk : data.get? k = some item)
    (ha : actionOf item = some (Val.str "A"))
    (hops : validate_database_operations db item (actionOf item)
        (count_codigo_occurrences data) = [("codigo_identificacion", msg)]) :
    ∃ E, ErrEntry.mk (k + 1) E ∈ (validate_data cfg db data).2
      ∧ dget E "codigo_identificacion" = some msg := by
  have hvalid : actionValid item = true := by
    unfold actionOf at ha
    unfold actionValid
    rw [ha]
    decide
  have hskip : hasFila (validateActionsGo 0 data) (0 + k + 1) = false :=
    validateActionsGo_skip data 0 k item hk hvalid
  have hE := itemFieldErrors_last cfg db (count_codigo_occurrences data) item
    "codigo_identificacion" msg hops
  have hne : (itemFieldErrors cfg db (count_codigo_occurrences data)
      item).isEmpty = false := by
    rw [hE]
    cases hd : dset (dupdate (dupdate
        (validate_item_fields item (actionOf item) cfg)
        (validate_tipo_identificacion item (actionOf item)))
        (validate_fecha_afiliacion item (actionOf item)))
        "codigo_identificacion" msg with
    | nil => exact absurd hd (dset_ne_nil _ _ _)
    | cons a l => rfl
  have hmem := validateItemsGo_mem cfg db (count_codigo_occurrences data)
    (validateActionsGo 0 data) data 0 k item hk hskip hne
  refine ⟨itemFieldErrors cfg db (count_codigo_occurrences data) item, ?_, ?_⟩
  · show _ ∈ validateActionsGo 0 data
      ++ validateItemsGo cfg db (count_codigo_occurrences data)
          (validateActionsGo 0 data) 0 data
    rw [List.mem_append]
    right
    rw [show k + 1 = 0 + k + 1 by omega]
    exact hmem
  · rw [hE]
    exact dget_dset_self _ _ _

/-- C3: in the Row Validator pipeline (`validate_data`, built from
`count_codigo_occurrences` and `validate_database_operations`), two rows
both tagged Add sharing one non-empty `codigo_identificacion` are BOTH
rejected with the "duplicado" error, whichever of the two comes first;
and the duplicated branch never consults the table: for EVERY table
state the database-operations check returns exactly the duplicated
error, so the existence check is skipped. -/
theorem c3_duplicate_adds (cfg : ResourceConfig) (db : DB)
    (data : List Item) (i j : Nat) (itemi itemj : Item) (c : String)
    (hij : i ≠ j)
    (hi : data.get? i = some itemi) (hj : data.get? j = some itemj)
    (hai : actionOf itemi = some (Val.str "A"))
    (haj : actionOf itemj = some (Val.str "A"))
    (hci : dget itemi "codigo_identificacion" = some (Val.str c))
    (hcj : dget itemj "codigo_identificacion" = some (Val.str c))
    (hc : c ≠ "") :
    (∃ E, ErrEntry.mk (i + 1) E ∈ (validate_data cfg db data).2
        ∧ dget E "codigo_identificacion" = some (msgDuplicado (Val.str c)))
    ∧ (∃ E, ErrEntry.mk (j + 1) E ∈ (validate_data cfg db data).2
        ∧ dget E "codigo_identificacion" = some (msgDuplicado (Val.str c)))
    ∧ (∀ db₂ : DB,
        validate_database_operations db₂ itemi (actionOf itemi)
            (count_codigo_occurrences data)
          = [("codigo_identificacion", msgDuplicado (Val.str c))]) := by
  have hcci : countedCodigo itemi = some c := by
    unfold actionOf at hai
    unfold countedCodigo
    rw [hai, hci]
    simp [hc]
  have hccj : countedCodigo itemj = some c := by
    unfold actionOf at haj
    unfold countedCodigo
    rw [haj, hcj]
    simp [hc]
  have h2 : 2 ≤ count_codigo_occurrences data c := by
    unfold count_codigo_occurrences
    rcases Nat.lt_or_ge i j with hlt | hge
    · exact countP_two_of_get? _ data i j itemi itemj hlt hi hj
        (by rw [hcci]; exact beq_self_eq_true _) (by rw [hccj]; exact beq_self_eq_true _)
    · have hlt : j < i := by omega
      exact countP_two_of_get? _ data j i itemj itemi hlt hj hi
        (by rw [hccj]; exact beq_self_eq_true _) (by rw [hcci]; exact beq_self_eq_true _)
  refine ⟨?_, ?_, ?_⟩
  · exact validate_data_add_entry cfg db data i itemi _ hi hai
      (by rw [hai]
          exact validate_database_operations_dup db itemi _ c hci (by omega))
  · exact validate_data_add_entry cfg db data j itemj _ hj haj
      (by rw [haj]
          exact validate_database_operations_dup db itemj _ c hcj (by omega))
  · intro db₂
    rw [hai]
    exact validate_database_operations_dup db₂ itemi _ c hci (by omega)

/-- Witness for `c3_duplicate_adds` at a concrete two-row batch. -/
theorem c3_duplicate_adds_witness :
    ∃ E, ErrEntry.mk 1 E
        ∈ (validate_data clientesConfig []
            [[("accion", Val.str "A"), ("codigo_identificacion", Val.str "C1")],
             [("accion", Val.str "A"),
              ("codigo_identificacion", Val.str "C1")]]).2
      ∧ dget E "codigo_identificacion" = some (msgDuplicado (Val.str "C1")) :=
  (c3_duplicate_adds clientesConfig []
    [[("accion", Val.str "A"), ("codigo_identificacion", Val.str "C1")],
     [("accion", Val.str "A"), ("codigo_identificacion", Val.str "C1")]]
    0 1
    [("accion", Val.str "A"), ("codigo_identificacion", Val.str "C1")]
    [("accion", Val.str "A"), ("codigo_identificacion", Val.str "C1")]
    "C1" (by decide) rfl rfl rfl rfl rfl rfl (by decide)).1

/-- C2 as stated is false on the code: `validate_and_process_client_data`
performs no existence check for Add rows.  At this concrete input the
row is tagged Add, its identifier already has one match in the table,
yet the batch result reports `inserted_count = 1` and an empty error
list — no "already exists" rejection. -/
theorem c2_add_existing_counterexample :
    actionOf
        [("accion", Val.str "A"), ("primer_nombre", Val.str "Juan"),
         ("primer_apellido", Val.str "Perez"),
         ("tipo_identificacion", Val.str "01"),
         ("numero_identificacion", Val.str "123"),
         ("fecha_afiliacion", Val.str "2023-01-01"),
         ("codigo_identificacion", Val.str "C1")]
      = some (Val.str "A")
    ∧ 0 < countMatching [[("codigo_identificacion", Val.str "C1")]]
        (Val.str "C1")
    ∧ validate_and_process_client_data clientesConfig
        [[("codigo_identificacion", Val.str "C1")]]
        [[("accion", Val.str "A"), ("primer_nombre", Val.str "Juan"),
          ("primer_apellido", Val.str "Perez"),
          ("tipo_identificacion", Val.str "01"),
          ("numero_identificacion", Val.str "123"),
          ("fecha_afiliacion", Val.str "2023-01-01"),
          ("codigo_identificacion", Val.str "C1")]]
        (fun _ => "u")
      = some ⟨1, 0, 0, []⟩ := by
  refine ⟨rfl, by decide, by decide⟩

/-- C2 amended: the "already exists" rejection of an Add row lives in the
Row Validator pipeline `validate_data` (the `validaciones` endpoint) —
an Add row whose identifier has at least one match in the table and
occurs exactly once in the batch gets a row-indexed error whose
`codigo_identificacion` message is the "ya existe" one. -/
theorem c2_amended_add_exists (cfg : ResourceConfig) (db : DB)
    (data : List Item) (k : Nat) (item : Item) (c : String)
    (hk : data.get? k = some item)
    (ha : actionOf item = some (Val.str "A"))
    (hc : dget item "codigo_identificacion" = some (Val.str c))
    (hcnt : count_codigo_occurrences data c = 1)
    (hdb : 0 < countMatching db (Val.str c)) :
    ∃ E, ErrEntry.mk (k + 1) E ∈ (validate_data cfg db data).2
      ∧ dget E "codigo_identificacion" = some (msgYaExiste (Val.str c)) :=
  validate_data_add_entry cfg db data k item _ hk ha
    (by rw [ha]
        exact validate_database_operations_exists db item _ c hc
          (by omega) hdb)

/-- Witness for `c2_amended_add_exists` at a concrete input. -/
theorem c2_amended_add_exists_witness :
    ∃ E, ErrEntry.mk 1 E
        ∈ (validate_data clientesConfig
            [[("codigo_identificacion", Val.str "C1")]]
            [[("accion", Val.str "A"),
              ("codigo_identificacion", Val.str "C1")]]).2
      ∧ dget E "codigo_identificacion" = some (msgYaExiste (Val.str "C1")) :=
  c2_amended_add_exists clientesConfig
    [[("codigo_identificacion", Val.str "C1")]]
    [[("accion", Val.str "A"), ("codigo_identificacion", Val.str "C1")]]
    0 [("accion", Val.str "A"), ("codigo_identificacion", Val.str "C1")]
    "C1" rfl rfl rfl (by decide) (by decide)

/-! ## `validate_client_item` on Modify rows -/

theorem requiredFieldErrors_M (cfg : ResourceConfig) (item : Item) (c : String)
    (hcM : dget item "codigo_identificacion" = some (Val.str c))
    (hct : pyStrip c ≠ "") :
    requiredFieldErrors cfg item (some (Val.str "M")) = [] := by
  unfold requiredFieldErrors
  rw [show requiredFieldsFor cfg (some (Val.str "M"))
      = ["codigo_identificacion"] from rfl]
  rw [List.foldl_cons, List.foldl_nil]
  rw [hcM]
  have hmiss : isMissing (some (Val.str c)) = false := by
    unfold isMissing
    simp [hct]
  rw [hmiss]
  rfl

theorem validate_client_item_M_missing (cfg : ResourceConfig) (db : DB)
    (item : Item) (c : String)
    (hcM : dget item "codigo_identificacion" = some (Val.str c))
    (hct : pyStrip c ≠ "")
    (hdb : countMatching db (Val.str c) = 0) :
    validate_client_item cfg db item (some (Val.str "M"))
      = [("codigo_identificacion",
          msgNoExiste (Val.str c) (some (Val.str "M")))] := by
  unfold validate_client_item
  rw [requiredFieldErrors_M cfg item c hcM hct]
  have hcond : ((actionIs (some (Val.str "M")) "M"
      || actionIs (some (Val.str "M")) "E") && dhas item "codigo_identificacion"
      && (dget ([] : List (String × String)) "codigo_identificacion").isNone)
      = true := by
    unfold dhas
    rw [hcM]
    rfl
  rw [if_pos hcond]
  unfold check_existence_in_db
  rw [hcM]
  simp only [Option.getD_some]
  rw [if_pos hdb]
  rfl

theorem validate_client_item_M_ok (cfg : ResourceConfig) (db : DB)
    (item : Item) (c : String)
    (hcM : dget item "codigo_identificacion" = some (Val.str c))
    (hct : pyStrip c ≠ "")
    (hdb : 0 < countMatching db (Val.str c)) :
    validate_client_item cfg db item (some (Val.str "M")) = [] := by
  unfold validate_client_item
  rw [requiredFieldErrors_M cfg item c hcM hct]
  have hcond : ((actionIs (some (Val.str "M")) "M"
      || actionIs (some (Val.str "M")) "E") && dhas item "codigo_identificacion"
      && (dget ([] : List (String × String)) "codigo_identificacion").isNone)
      = true := by
    unfold dhas
    rw [hcM]
    rfl
  rw [if_pos hcond]
  unfold check_existence_in_db
  rw [hcM]
  simp only [Option.getD_some]
  rw [if_neg (by omega)]

/-- C4 as stated is false on the code: validation of the whole batch runs
against the pre-batch table before any row executes.  At this concrete
input — an Add of "C1" followed by a Modify of "C1" on an empty table —
the Modify row does NOT pass validation: the result has
`updated_count = 0` and a row-2 "no existe" validation error (the Add
row is still inserted). -/
theorem c4_add_then_modify_counterexample :
    validate_and_process_client_data clientesConfig []
        [[("accion", Val.str "A"), ("primer_nombre", Val.str "Juan"),
          ("primer_apellido", Val.str "Perez"),
          ("tipo_identificacion", Val.str "01"),
          ("numero_identificacion", Val.str "123"),
          ("fecha_afiliacion", Val.str "2023-01-01"),
          ("codigo_identificacion", Val.str "C1")],
         [("accion", Val.str "M"), ("codigo_identificacion", Val.str "C1"),
          ("primer_nombre", Val.str "Otro")]]
        (fun _ => "u")
      = some ⟨1, 0, 0,
          [ErrEntry.mk 2 [("codigo_identificacion",
            msgNoExiste (Val.str "C1") (some (Val.str "M")))]]⟩ := by
  decide

/-- C4 amended: an Add of a fresh identifier followed by a Modify of the
same identifier in one batch does NOT let the Modify observe the Add's
effect — the Modify row is rejected during the up-front validation pass
(run against the pre-batch table) with a "no existe" error, contributes
zero to `updated_count`, and only the Add executes. -/
theorem c4_amended_add_then_modify (cfg : ResourceConfig) (db : DB)
    (uuidGen : Nat → String) (c : String) (itemAdd itemMod : Item)
    (hA : actionOf itemAdd = some (Val.str "A"))
    (hvalA : validate_client_item cfg db itemAdd (actionOf itemAdd) = [])
    (hM : actionOf itemMod = some (Val.str "M"))
    (hcM : dget itemMod "codigo_identificacion" = some (Val.str c))
    (hct : pyStrip c ≠ "")
    (hdb : countMatching db (Val.str c) = 0) :
    ∃ res, validate_and_process_client_data cfg db [itemAdd, itemMod] uuidGen
        = some res
      ∧ res.updated_count = 0
      ∧ res.inserted_count = 1
      ∧ res.errors = [ErrEntry.mk 2 [("codigo_identificacion",
          msgNoExiste (Val.str c) (some (Val.str "M")))]] := by
  have hvm := validate_client_item_M_missing cfg db itemMod c hcM hct hdb
  have hverr : validate_client_data cfg db [itemAdd, itemMod]
      = [ErrEntry.mk 2 [("codigo_identificacion",
          msgNoExiste (Val.str c) (some (Val.str "M")))]] := by
    unfold validate_client_data
    simp only [validateRows, hM]
    rw [hvalA, hvm]
    simp
  have hmain : validate_and_process_client_data cfg db [itemAdd, itemMod]
      uuidGen
      = some ⟨1, 0, 0, [ErrEntry.mk 2 [("codigo_identificacion",
          msgNoExiste (Val.str c) (some (Val.str "M")))]]⟩ := by
    unfold validate_and_process_client_data process_valid_client_data
    rw [hverr]
    simp only [processRows, hasFila, List.any_cons, List.any_nil]
    simp only [process_client_item, runAction, hA]
    simp only [show actionIs (some (Val.str "A")) "A" = true from rfl,
      if_pos rfl]
    simp [handle_insert, catchProcess, headCombine, hasFila, hA, actionIs]
  exact ⟨_, hmain, rfl, rfl, rfl⟩

/-- Witness for `c4_amended_add_then_modify` at a concrete input. -/
theorem c4_amended_add_then_modify_witness :
    ∃ res, validate_and_process_client_data clientesConfig []
        [[("accion", Val.str "A"), ("primer_nombre", Val.str "Juan"),
          ("primer_apellido", Val.str "Perez"),
          ("tipo_identificacion", Val.str "01"),
          ("numero_identificacion", Val.str "123"),
          ("fecha_afiliacion", Val.str "2023-01-01"),
          ("codigo_identificacion", Val.str "C1")],
         [("accion", Val.str "M"), ("codigo_identificacion", Val.str "C1"),
          ("primer_nombre", Val.str "Otro")]]
        (fun _ => "u")
        = some res
      ∧ res.updated_count = 0
      ∧ res.inserted_count = 1
      ∧ res.errors = [ErrEntry.mk 2 [("codigo_identificacion",
          msgNoExiste (Val.str "C1") (some (Val.str "M")))]] :=
  c4_amended_add_then_modify clientesConfig [] (fun _ => "u") "C1"
    [("accion", Val.str "A"), ("primer_nombre", Val.str "Juan"),
     ("primer_apellido", Val.str "Perez"),
     ("tipo_identificacion", Val.str "01"),
     ("numero_identificacion", Val.str "123"),
     ("fecha_afiliacion", Val.str "2023-01-01"),
     ("codigo_identificacion", Val.str "C1")]
    [("accion", Val.str "M"), ("codigo_identificacion", Val.str "C1"),
     ("primer_nombre", Val.str "Otro")]
    rfl (by decide) rfl rfl (by decide) (by decide)

/-- C10: a Modify row that passes validation (identifier present,
non-blank and existing in the table) but carries no descriptor column
other than the identifier produces an empty `SET` list, so the `UPDATE`
statement is malformed and the execution raises; the row is reported as
a "general" error at its 1-based index and `updated_count` stays 0. -/
theorem c10_empty_set_update (cfg : ResourceConfig) (db : DB) (item : Item)
    (c : String) (uuidGen : Nat → String)
    (hM : actionOf item = some (Val.str "M"))
    (hcM : dget item "codigo_identificacion" = some (Val.str c))
    (hct : pyStrip c ≠ "")
    (hdb : 0 < countMatching db (Val.str c))
    (hcols : ∀ col ∈ cfg.columns, col ≠ "codigo_identificacion" →
        dget item col = none) :
    updateSets cfg item = []
    ∧ handle_update cfg db item 0 = .error "syntax error at or near \"WHERE\""
    ∧ validate_and_process_client_data cfg db [item] uuidGen
        = some ⟨0, 0, 0, [ErrEntry.mk 1 [("general",
            msgProcess "syntax error at or near \"WHERE\"")]]⟩ := by
  have hsets : updateSets cfg item = [] := by
    unfold updateSets
    rw [List.filterMap_eq_nil_iff]
    intro col hcol
    by_cases hx : col = "codigo_identificacion"
    · subst hx
      simp
    · simp [dhas, hcols col hcol hx]
  have hupd : handle_update cfg db item 0
      = .error "syntax error at or near \"WHERE\"" := by
    unfold handle_update
    rw [hsets, hcM]
    rfl
  have hverr : validate_client_data cfg db [item] = [] := by
    unfold validate_client_data
    simp only [validateRows, hM]
    rw [validate_client_item_M_ok cfg db item c hcM hct hdb]
    simp
  have hmain : validate_and_process_client_data cfg db [item] uuidGen
      = some ⟨0, 0, 0, [ErrEntry.mk 1 [("general",
          msgProcess "syntax error at or near \"WHERE\"")]]⟩ := by
    unfold validate_and_process_client_data process_valid_client_data
    rw [hverr]
    simp only [processRows, hasFila, List.any_cons, List.any_nil]
    simp only [process_client_item, runAction, hM]
    simp only [show actionIs (some (Val.str "M")) "A" = false from rfl,
      show actionIs (some (Val.str "M")) "M" = true from rfl,
      Bool.false_eq_true, if_false, if_pos rfl]
    rw [hupd]
    simp [catchProcess, headCombine]
  exact ⟨hsets, hupd, hmain⟩

/-- Witness for `c10_empty_set_update` at a concrete input. -/
theorem c10_empty_set_update_witness :
    validate_and_process_client_data clientesConfig
        [[("codigo_identificacion", Val.str "C1")]]
        [[("accion", Val.str "M"), ("codigo_identificacion", Val.str "C1")]]
        (fun _ => "u")
      = some ⟨0, 0, 0, [ErrEntry.mk 1 [("general",
          msgProcess "syntax error at or near \"WHERE\"")]]⟩ :=
  (c10_empty_set_update clientesConfig
    [[("codigo_identificacion", Val.str "C1")]]
    [("accion", Val.str "M"), ("codigo_identificacion", Val.str "C1")]
    "C1" (fun _ => "u") rfl rfl (by decide) (by decide)
    (by decide)).2.2

/-! ## C1: the batch bookkeeping invariant -/

theorem validateRows_fila_bounds (cfg : ResourceConfig) (db : DB) :
    ∀ (data : List Item) (idx : Nat) (e : ErrEntry),
      e ∈ validateRows cfg db idx data →
      idx + 1 ≤ e.fila ∧ e.fila ≤ idx + data.length
  | [], _, e, h => by simp [validateRows] at h
  | item :: rest, idx, e, h => by
      unfold validateRows at h
      rw [List.mem_append] at h
      rcases h with h | h
      · split at h
        · simp at h
        · rw [List.mem_singleton] at h
          subst h
          simp only [List.length_cons]
          omega
      · have := validateRows_fila_bounds cfg db rest (idx + 1) e h
        simp only [List.length_cons]
        omega

theorem validateRows_pairwise (cfg : ResourceConfig) (db : DB) :
    ∀ (data : List Item) (idx : Nat),
      List.Pairwise (· < ·) ((validateRows cfg db idx data).map ErrEntry.fila)
  | [], _ => by simp [validateRows]
  | item :: rest, idx => by
      unfold validateRows
      rw [List.map_append, List.pairwise_append]
      refine ⟨?_, ?_, ?_⟩
      · split
        case isTrue => simp
        case isFalse => simp
      · exact validateRows_pairwise cfg db rest (idx + 1)
      · intro a ha b hb
        rw [List.mem_map] at ha hb
        obtain ⟨e1, he1, rfl⟩ := ha
        obtain ⟨e2, he2, rfl⟩ := hb
        have h2 := (validateRows_fila_bounds cfg db rest (idx + 1) e2 he2).1
        split at he1
        · simp at he1
        · rw [List.mem_singleton] at he1
          subst he1
          simp only []
          omega

/-- How many rows of the batch tail starting at `idx` escape the
skip-by-validation-error test of `process_valid_client_data`. -/
def unskipped (verrs : List ErrEntry) : Nat → List Item → Nat
  | _, [] => 0
  | idx, _ :: rest =>
      (if hasFila verrs (idx + 1) then 0 else 1) + unskipped verrs (idx + 1) rest

theorem unskipped_ext (v1 v2 : List ErrEntry) :
    ∀ (data : List Item) (idx : Nat),
      (∀ n, idx + 1 ≤ n → n ≤ idx + data.length → hasFila v1 n = hasFila v2 n) →
      unskipped v1 idx data = unskipped v2 idx data
  | [], _, _ => rfl
  | item :: rest, idx, h => by
      unfold unskipped
      rw [h (idx + 1) (by omega) (by simp only [List.length_cons]; omega)]
      rw [unskipped_ext v1 v2 rest (idx + 1)
        (fun n h1 h2 => h n (by omega)
          (by simp only [List.length_cons]; omega))]

theorem validateRows_count (cfg : ResourceConfig) (db : DB) :
    ∀ (data : List Item) (idx : Nat),
      unskipped (validateRows cfg db idx data) idx data
        + (validateRows cfg db idx data).length = data.length
  | [], _ => rfl
  | item :: rest, idx => by
      have hext : unskipped (validateRows cfg db idx (item :: rest)) (idx + 1) rest
          = unskipped (validateRows cfg db (idx + 1) rest) (idx + 1) rest := by
        apply unskipped_ext
        intro n h1 h2
        show hasFila ((if (validate_client_item cfg db item
            (actionOf item)).isEmpty then []
          else [ErrEntry.mk (idx + 1)
            (validate_client_item cfg db item (actionOf item))])
          ++ validateRows cfg db (idx + 1) rest) n = _
        rw [hasFila_append]
        have hhd : hasFila (if (validate_client_item cfg db item
            (actionOf item)).isEmpty then []
          else [ErrEntry.mk (idx + 1)
            (validate_client_item cfg db item (actionOf item))]) n = false := by
          split
          · rfl
          · rw [hasFila_eq_false_iff]
            intro e he
            rw [List.mem_singleton] at he
            subst he
            simp only []
            omega
        rw [hhd, Bool.false_or]
      have htl : hasFila (validateRows cfg db (idx + 1) rest) (idx + 1)
          = false := by
        rw [hasFila_eq_false_iff]
        intro e he
        have := (validateRows_fila_bounds cfg db rest (idx + 1) e he).1
        omega
      have ih := validateRows_count cfg db rest (idx + 1)
      show unskipped _ idx (item :: rest) + _ = _
      unfold unskipped
      rw [hext]
      by_cases hfe : (validate_client_item cfg db item
          (actionOf item)).isEmpty = true
      · have hv : validateRows cfg db idx (item :: rest)
            = validateRows cfg db (idx + 1) rest := by
          simp only [validateRows]
          rw [if_pos hfe, List.nil_append]
        rw [hv, htl, if_neg (by simp)]
        simp only [List.length_cons]
        omega
      · have hv : validateRows cfg db idx (item :: rest)
            = ErrEntry.mk (idx + 1) (validate_client_item cfg db item
                (actionOf item)) :: validateRows cfg db (idx + 1) rest := by
          simp only [validateRows]
          rw [if_neg hfe, List.singleton_append]
        rw [hv]
        have hskip : hasFila (ErrEntry.mk (idx + 1)
            (validate_client_item cfg db item (actionOf item))
              :: validateRows cfg db (idx + 1) rest) (idx + 1) = true := by
          unfold hasFila
          rw [List.any_cons]
          simp
        rw [hskip, if_pos rfl]
        simp only [List.length_cons]
        omega

theorem handle_insert_shape (cfg : ResourceConfig) (db : DB) (item : Item)
    (uuid : String) (idx : Nat) :
    ∀ r, handle_insert cfg db item uuid = .ok r → r.success = false →
      ∃ m, r.error = some (ErrEntry.mk (idx + 1) [("general", m)]) := by
  intro r h hs
  unfold handle_insert at h
  injection h with h
  rw [← h] at hs
  simp at hs

theorem handle_update_shape (cfg : ResourceConfig) (db : DB) (item : Item)
    (idx : Nat) :
    ∀ r, handle_update cfg db item idx = .ok r → r.success = false →
      ∃ m, r.error = some (ErrEntry.mk (idx + 1) [("general", m)]) := by
  intro r h hs
  unfold handle_update at h
  dsimp only at h
  cases hcg : dget item "codigo_identificacion" with
  | none => rw [hcg] at h; exact Except.noConfusion h
  | some c =>
      rw [hcg] at h
      dsimp only at h
      split at h
      · exact Except.noConfusion h
      · split at h
        · injection h with h
          rw [← h] at hs
          simp at hs
        · injection h with h
          rw [← h]
          exact ⟨msgNoUpdate c, rfl⟩

theorem handle_delete_shape (db : DB) (item : Item) (idx : Nat) :
    ∀ r, handle_delete db item idx = .ok r → r.success = false →
      ∃ m, r.error = some (ErrEntry.mk (idx + 1) [("general", m)]) := by
  intro r h hs
  unfold handle_delete at h
  dsimp only at h
  cases hcg : dget item "codigo_identificacion" with
  | none => rw [hcg] at h; exact Except.noConfusion h
  | some c =>
      rw [hcg] at h
      dsimp only at h
      split at h
      · injection h with h
        rw [← h] at hs
        simp at hs
      · injection h with h
        rw [← h]
        exact ⟨msgNoDelete c, rfl⟩

theorem catchProcess_error_shape (db : DB) (item : Item) (idx : Nat)
    (E : Except String HandlerRes)
    (hok : ∀ r, E = .ok r → r.success = false →
      ∃ m, r.error = some (ErrEntry.mk (idx + 1) [("general", m)])) :
    (catchProcess db item idx E).success = false →
      ∃ m, (catchProcess db item idx E).error
        = some (ErrEntry.mk (idx + 1) [("general", m)]) := by
  cases E with
  | error e => intro _; exact ⟨msgProcess e, rfl⟩
  | ok r => intro h; exact hok r rfl h

/-- A structurally valid row always gets a processing outcome, and any
failed outcome carries a single "general" error at the row's 1-based
index. -/
theorem process_client_item_some (cfg : ResourceConfig) (db : DB)
    (item : Item) (idx : Nat) (uuid : String)
    (hv : actionValid item = true) :
    ∃ out, process_client_item cfg db item idx uuid = some out
      ∧ (out.success = false →
          ∃ m, out.error = some (ErrEntry.mk (idx + 1) [("general", m)])) := by
  unfold actionValid at hv
  cases ha : dget item "accion" with
  | none => rw [ha] at hv; simp at hv
  | some v =>
      cases v with
      | null => rw [ha] at hv; simp at hv
      | str s =>
          rw [ha] at hv
          simp only [Bool.or_eq_true, decide_eq_true_eq] at hv
          have haof : actionOf item = some (Val.str s) := ha
          rcases hv with (hv | hv) | hv
          · subst hv
            refine ⟨catchProcess db item idx
              (handle_insert cfg db item uuid), ?_, ?_⟩
            · unfold process_client_item runAction
              rw [haof]
              rfl
            · refine catchProcess_error_shape db item idx _ ?_
              intro r h hs
              obtain ⟨m, hm⟩ := handle_insert_shape cfg db item uuid idx r h hs
              exact ⟨m, hm⟩
          · subst hv
            refine ⟨catchProcess db item idx
              (handle_delete db item idx), ?_, ?_⟩
            · unfold process_client_item runAction
              rw [haof]
              rfl
            · exact catchProcess_error_shape db item idx _
                (handle_delete_shape db item idx)
          · subst hv
            refine ⟨catchProcess db item idx
              (handle_update cfg db item idx), ?_, ?_⟩
            · unfold process_client_item runAction
              rw [haof]
              rfl
            · exact catchProcess_error_shape db item idx _
                (handle_update_shape cfg db item idx)

theorem headCombine_errors (item : Item) (out : HandlerRes) (idx : Nat)
    (s : ProcSummary) :
    (headCombine item out idx s).processing_errors
      = if out.success then s.processing_errors
        else (out.error.getD ⟨idx + 1, []⟩) :: s.processing_errors := by
  unfold headCombine
  by_cases hs : out.success = true
  · rw [if_pos hs, if_pos hs]
    repeat first | rfl | split
  · rw [if_neg hs, if_neg hs]

theorem headCombine_sum (item : Item) (out : HandlerRes) (idx : Nat)
    (s : ProcSummary) (hv : actionValid item = true) :
    (headCombine item out idx s).inserted + (headCombine item out idx s).updated
      + (headCombine item out idx s).deleted
      + (headCombine item out idx s).processing_errors.length
      = s.inserted + s.updated + s.deleted
        + s.processing_errors.length + 1 := by
  unfold actionValid at hv
  cases ha : dget item "accion" with
  | none => rw [ha] at hv; simp at hv
  | some v =>
      cases v with
      | null => rw [ha] at hv; simp at hv
      | str a0 =>
          rw [ha] at hv
          simp only [Bool.or_eq_true, decide_eq_true_eq] at hv
          have haof : actionOf item = some (Val.str a0) := ha
          unfold headCombine
          by_cases hs : out.success = true
          · rw [if_pos hs]
            rcases hv with (hv | hv) | hv <;> subst hv <;>
              simp [haof, actionIs] <;> omega
          · rw [if_neg hs]
            simp only [List.length_cons]
            omega

theorem processRows_spec (cfg : ResourceConfig) (uuidGen : Nat → String)
    (verrs : List ErrEntry) :
    ∀ (data : List Item) (db : DB) (idx : Nat),
      (∀ item ∈ data, actionValid item = true) →
      ∃ s, processRows cfg uuidGen verrs db idx data = some s
        ∧ s.inserted + s.updated + s.deleted + s.processing_errors.length
            = unskipped verrs idx data
        ∧ (∀ e ∈ s.processing_errors,
            idx + 1 ≤ e.fila ∧ e.fila ≤ idx + data.length
              ∧ hasFila verrs e.fila = false)
        ∧ List.Pairwise (· < ·) (s.processing_errors.map ErrEntry.fila)
  | [], db, idx, _ => ⟨⟨0, 0, 0, [], db⟩, rfl, rfl, by simp, by simp⟩
  | item :: rest, db, idx, hall => by
      have hv : actionValid item = true := hall item (List.mem_cons_self _ _)
      have hrest : ∀ x ∈ rest, actionValid x = true :=
        fun x hx => hall x (List.mem_cons_of_mem _ hx)
      by_cases hskip : hasFila verrs (idx + 1) = true
      · obtain ⟨s, hs, hsum, hbnd, hpw⟩ :=
          processRows_spec cfg uuidGen verrs rest db (idx + 1) hrest
        refine ⟨s, ?_, ?_, ?_, hpw⟩
        · simp only [processRows, hskip, if_true]
          exact hs
        · unfold unskipped
          rw [if_pos hskip]
          omega
        · intro e he
          have hb := hbnd e he
          refine ⟨by omega, ?_, hb.2.2⟩
          simp only [List.length_cons]
          omega
      · obtain ⟨out, hout, hshape⟩ :=
          process_client_item_some cfg db item idx (uuidGen idx) hv
        obtain ⟨s, hs, hsum, hbnd, hpw⟩ :=
          processRows_spec cfg uuidGen verrs rest out.db (idx + 1) hrest
        have hsf : out.success = true ∨ out.success = false := by
          cases out.success
          · right; rfl
          · left; rfl
        refine ⟨headCombine item out idx s, ?_, ?_, ?_, ?_⟩
        · simp only [processRows]
          rw [if_neg hskip, hout]
          dsimp only
          rw [hs]
        · have h1 := headCombine_sum item out idx s hv
          unfold unskipped
          rw [if_neg hskip]
          omega
        · intro e he
          rw [headCombine_errors] at he
          rcases hsf with hsc | hsc
          · rw [if_pos hsc] at he
            have hb := hbnd e he
            refine ⟨by omega, ?_, hb.2.2⟩
            simp only [List.length_cons]
            omega
          · rw [if_neg (by simp [hsc])] at he
            obtain ⟨m, hm⟩ := hshape hsc
            rcases List.mem_cons.mp he with rfl | he'
            · rw [hm]
              refine ⟨?_, ?_, ?_⟩
              · simp
              · simp only [Option.getD_some, List.length_cons]
                omega
              · simp only [Option.getD_some]
                show hasFila verrs (idx + 1) = false
                cases hsk2 : hasFila verrs (idx + 1)
                · rfl
                · exact absurd hsk2 hskip
            · have hb := hbnd e he'
              refine ⟨by omega, ?_, hb.2.2⟩
              simp only [List.length_cons]
              omega
        · rw [headCombine_errors]
          rcases hsf with hsc | hsc
          · rw [if_pos hsc]
            exact hpw
          · rw [if_neg (by simp [hsc])]
            obtain ⟨m, hm⟩ := hshape hsc
            rw [List.map_cons, List.pairwise_cons]
            constructor
            · intro b hb
              rw [List.mem_map] at hb
              obtain ⟨e', he', rfl⟩ := hb
              have := (hbnd e' he').1
              rw [hm]
              simp only [Option.getD_some]
              omega
            · exact hpw

/-- C1: for every batch that passes the structural guard (every row's
action tag is one of A/E/M), `validate_and_process_client_data` returns
a result (no crash), the three counters plus the number of reported
error entries add up to the batch length, the reported row indices are
pairwise distinct (each row contributes to exactly one counter or one
error entry), and every reported index is a valid 1-based batch
position. -/
theorem c1_batch_invariant (cfg : ResourceConfig) (db : DB)
    (data : List Item) (uuidGen : Nat → String)
    (h : structuralActionsOk data = true) :
    ∃ res, validate_and_process_client_data cfg db data uuidGen = some res
      ∧ res.inserted_count + res.updated_count + res.deleted_count
          + res.errors.length = data.length
      ∧ (res.errors.map ErrEntry.fila).Nodup
      ∧ ∀ e ∈ res.errors, 1 ≤ e.fila ∧ e.fila ≤ data.length := by
  have hall : ∀ item ∈ data, actionValid item = true := by
    unfold structuralActionsOk at h
    rw [List.all_eq_true] at h
    exact h
  obtain ⟨s, hs, hsum, hbnd, hpw⟩ :=
    processRows_spec cfg uuidGen (validate_client_data cfg db data) data db 0
      hall
  have hcount : unskipped (validate_client_data cfg db data) 0 data
      + (validate_client_data cfg db data).length = data.length :=
    validateRows_count cfg db data 0
  refine ⟨⟨s.inserted, s.updated, s.deleted,
    validate_client_data cfg db data ++ s.processing_errors⟩, ?_, ?_, ?_, ?_⟩
  · unfold validate_and_process_client_data process_valid_client_data
    dsimp only
    rw [hs]
  · simp only [List.length_append]
    omega
  · rw [List.map_append, List.nodup_append]
    refine ⟨?_, ?_, ?_⟩
    · exact (validateRows_pairwise cfg db data 0).imp Nat.ne_of_lt
    · exact hpw.imp Nat.ne_of_lt
    · intro a ha hb
      rw [List.mem_map] at ha hb
      obtain ⟨e1, he1, rfl⟩ := ha
      obtain ⟨e2, he2, heq⟩ := hb
      have h2 := (hbnd e2 he2).2.2
      rw [hasFila_eq_false_iff] at h2
      exact h2 e1 he1 heq.symm
  · intro e he
    rw [List.mem_append] at he
    rcases he with he | he
    · have hb := validateRows_fila_bounds cfg db data 0 e he
      exact ⟨by omega, by omega⟩
    · have hb := hbnd e he
      exact ⟨(hb.1 : _), by omega⟩

/-- Witness for `c1_batch_invariant` at a concrete input. -/
theorem c1_batch_invariant_witness :
    ∃ res, validate_and_process_client_data clientesConfig []
        [[("accion", Val.str "E"), ("codigo_identificacion", Val.str "X")],
         [("accion", Val.str "A"), ("primer_nombre", Val.str "Juan"),
          ("primer_apellido", Val.str "Perez"),
          ("tipo_identificacion", Val.str "01"),
          ("numero_identificacion", Val.str "123"),
          ("fecha_afiliacion", Val.str "2023-01-01"),
          ("codigo_identificacion", Val.str "C1")]]
        (fun _ => "u")
        = some res
      ∧ res.inserted_count + res.updated_count + res.deleted_count
          + res.errors.length = 2
      ∧ (res.errors.map ErrEntry.fila).Nodup
      ∧ ∀ e ∈ res.errors, 1 ≤ e.fila ∧ e.fila ≤ 2 :=
  c1_batch_invariant clientesConfig []
    [[("accion", Val.str "E"), ("codigo_identificacion", Val.str "X")],
     [("accion", Val.str "A"), ("primer_nombre", Val.str "Juan"),
      ("primer_apellido", Val.str "Perez"),
      ("tipo_identificacion", Val.str "01"),
      ("numero_identificacion", Val.str "123"),
      ("fecha_afiliacion", Val.str "2023-01-01"),
      ("codigo_identificacion", Val.str "C1")]]
    (fun _ => "u") (by decide)

/-- Witness for `c6_handle_update` at a concrete input. -/
theorem c6_handle_update_witness :
    ∃ r, handle_update clientesConfig []
        [("accion", Val.str "M"), ("codigo_identificacion", Val.str "C1"),
         ("primer_nombre", Val.str "X")] 0 = .ok r
      ∧ r.success = false
      ∧ r.error = some ⟨1, [("general", msgNoUpdate (Val.str "C1"))]⟩ :=
  (c6_handle_update clientesConfig []
    [("accion", Val.str "M"), ("codigo_identificacion", Val.str "C1"),
     ("primer_nombre", Val.str "X")] 0 (Val.str "C1")
    (by rfl)).2.2.2.2 (by rfl) (by rfl)
